import Mathlib

/-!
Verification of the log-stream interpretation engine (event normalizer,
line classifier, invocation grouper, invocation sorter) of the repository.
The definitions below are a shallow embedding of the JavaScript/TypeScript
source: strings are lists of characters, JS `undefined` is `Option.none`,
and JS truthiness of strings/numbers is modelled explicitly where the
source relies on it (`||` backfills).
-/

namespace SSTLogs

/-- Strings are modelled as lists of characters (JS strings, code-unit view). -/
abbrev Str := List Char

/-- Whitespace characters recognised by JS `trim` and the `\s` regex class
(restricted to the ASCII ones that can occur in log lines). -/
def isJsSpace (c : Char) : Bool :=
  c = ' ' || c = '\t' || c = '\n' || c = '\r' || c = '\x0b' || c = '\x0c'

/-- Embedding of `String.prototype.trim`. -/
def jsTrim (s : Str) : Str :=
  ((s.dropWhile isJsSpace).reverse.dropWhile isJsSpace).reverse

/-- Embedding of `String.prototype.startsWith`. -/
def jsStartsWith (pre s : Str) : Bool :=
  List.isPrefixOf pre s

/-- Embedding of `String.prototype.split` with a single-character separator:
splits on every occurrence, keeping empty segments; `"".split(sep)` is `[""]`. -/
def jsSplit (sep : Char) : Str → List Str
  | [] => [[]]
  | c :: rest =>
    match jsSplit sep rest with
    | [] => [[c]]
    | t :: ts => if c = sep then [] :: t :: ts else (c :: t) :: ts

/-- Embedding of `Array.prototype.join` with a single-character separator. -/
def jsJoin (sep : Char) (parts : List Str) : Str :=
  List.intercalate [sep] parts

/-- Embedding of `String.prototype.substr(start, len)`. -/
def jsSubstr (s : Str) (start len : Nat) : Str :=
  (s.drop start).take len

/-- A fixed-shape pattern: the string must have exactly one character per
predicate, each satisfying its predicate.  Used to embed the anchored
regexes of the source. -/
def matchShape (ps : List (Char → Bool)) (s : Str) : Bool :=
  (s.length == ps.length) && (List.zipWith (fun p c => p c) ps s).all id

/-- Pattern piece: a run of `n` decimal digits. -/
def digitRun (n : Nat) : List (Char → Bool) :=
  List.replicate n Char.isDigit

/-- Pattern piece: one literal character. -/
def chLit (c : Char) : List (Char → Bool) :=
  [fun x => x = c]

/-- Shape of the timestamp-to-the-second part of an ISO-8601 timestamp,
`\d{4}-\d{2}-\d{2}T\d{2}:\d{2}:\d{2}`. -/
def tsBase : List (Char → Bool) :=
  digitRun 4 ++ chLit '-' ++ digitRun 2 ++ chLit '-' ++ digitRun 2 ++ chLit 'T' ++
  digitRun 2 ++ chLit ':' ++ digitRun 2 ++ chLit ':' ++ digitRun 2

/-- Embedding of the regex `^\d{4}-\d{2}-\d{2}T\d{2}:\d{2}:\d{2}\.\d{3}Z$`
used by the generic and the JS-family matchers. -/
def tsShapeMs : Str → Bool :=
  matchShape (tsBase ++ chLit '.' ++ digitRun 3 ++ chLit 'Z')

/-- Embedding of the regex `^\d{4}-\d{2}-\d{2}T\d{2}:\d{2}:\d{2}(\.\d{1,3})?Z$`
used by the scripting-family matcher (optional 1-3 digit fraction). -/
def tsShapePy (s : Str) : Bool :=
  matchShape (tsBase ++ chLit 'Z') s ||
  matchShape (tsBase ++ chLit '.' ++ digitRun 1 ++ chLit 'Z') s ||
  matchShape (tsBase ++ chLit '.' ++ digitRun 2 ++ chLit 'Z') s ||
  matchShape (tsBase ++ chLit '.' ++ digitRun 3 ++ chLit 'Z') s

/-- Character class `[0-9a-fA-F-]` of the request-id regex. -/
def isHexDash (c : Char) : Bool :=
  c.isDigit || ('a' ≤ c && c ≤ 'f') || ('A' ≤ c && c ≤ 'F') || c = '-'

/-- Embedding of the regex `^[0-9a-fA-F-]{36}$` (36-character request id). -/
def idShape : Str → Bool :=
  matchShape (List.replicate 36 isHexDash)

/-- Literal part of the traceback regex `/\sTraceback \(most recent call last\):\s/`. -/
def tracebackPat : Str := "Traceback (most recent call last):".toList

/-- Embedding of the unanchored search for the traceback regex: a whitespace
character, the literal, then a whitespace character, anywhere in the string. -/
def hasTraceback : Str → Bool
  | [] => false
  | c :: rest =>
    (isJsSpace c && jsStartsWith tracebackPat rest &&
      (match rest.drop tracebackPat.length with
       | [] => false
       | d :: _ => isJsSpace d)) || hasTraceback rest

/-- Severity levels of a classified line (field `level` of the source's `Log`). -/
inductive LogLevel where
  | START
  | END
  | REPORT
  | INFO
  | WARN
  | ERROR
deriving DecidableEq, Repr

/-- Invocation metadata extracted from a REPORT line (source `invocationMetadata`).
The numeric-looking fields are strings in the source (results of `split`). -/
structure InvMeta where
  duration : Option Str := none
  memSize : Option Str := none
  memUsed : Option Str := none
  xrayTraceId : Option Str := none
  isFailed : Option Bool := none
deriving DecidableEq, Repr

/-- A raw CloudWatch log event as consumed by the pipeline. -/
structure RawLogEvent where
  eventId : Str
  logStreamName : Str
  timestamp : Nat
  message : Str
deriving DecidableEq, Repr

/-- A (possibly partially) classified line, the source's `Log` object.
`level = none` models the yet-unset `log.level`. -/
structure Log where
  id : Str := []
  message : Str := []
  timestamp : Nat := 0
  logStream : Str := []
  level : Option LogLevel := none
  requestId : Option Str := none
  invocationMetadata : Option InvMeta := none
deriving DecidableEq, Repr

/-- Embedding of `parseLambdaSTART`. -/
def parseLambdaSTART (log : Log) : Log :=
  if jsStartsWith "START RequestId: ".toList log.message then
    { log with level := some .START, requestId := some (jsSubstr log.message 17 36) }
  else log

/-- Embedding of `parseLambdaEND`. -/
def parseLambdaEND (log : Log) : Log :=
  if jsStartsWith "END RequestId: ".toList log.message then
    { log with level := some .END, requestId := some (jsSubstr log.message 15 36) }
  else log

/-- One step of the REPORT tab-segment scan: trims the segment and fills the
matching metadata field from the segment's space-separated tokens. -/
def reportSegment (md : InvMeta) (seg : Str) : InvMeta :=
  let part := jsTrim seg
  if jsStartsWith "Duration".toList part then
    { md with duration := (jsSplit ' ' part)[1]? }
  else if jsStartsWith "Memory Size".toList part then
    { md with memSize := (jsSplit ' ' part)[2]? }
  else if jsStartsWith "Max Memory Used".toList part then
    { md with memUsed := (jsSplit ' ' part)[3]? }
  else if jsStartsWith "XRAY TraceId".toList part then
    { md with xrayTraceId := (jsSplit ' ' part)[2]? }
  else md

/-- Embedding of `parseLambdaREPORT`. -/
def parseLambdaREPORT (log : Log) : Log :=
  if jsStartsWith "REPORT RequestId: ".toList log.message then
    let md0 := log.invocationMetadata.getD {}
    let md := (jsSplit '\t' log.message).foldl reportSegment md0
    { log with
      level := some .REPORT, requestId := some (jsSubstr log.message 18 36),
      invocationMetadata := some md }
  else log

/-- Embedding of `parseLambdaUnknownApplicationError`. -/
def parseLambdaUnknownApplicationError (log : Log) : Log :=
  if jsStartsWith "Unknown application error occurred".toList log.message then
    { log with
      level := some .ERROR,
      invocationMetadata := some (log.invocationMetadata.getD {}) }
  else log

/-- Embedding of `parseLambdaModuleInitializationError`. -/
def parseLambdaModuleInitializationError (log : Log) : Log :=
  if jsStartsWith "module initialization error".toList log.message then
    { log with
      level := some .ERROR,
      invocationMetadata := some (log.invocationMetadata.getD {}) }
  else log

/-- Embedding of `parseLambdaExited`. -/
def parseLambdaExited (log : Log) (spcParts : List Str) : Log :=
  if 3 ≤ spcParts.length ∧ spcParts.headD [] = "RequestId:".toList ∧
      idShape (spcParts.getD 1 []) = true then
    let msg := jsJoin ' ' (spcParts.drop 2)
    { log with
      requestId := some (spcParts.getD 1 []), level := some .ERROR, message := msg,
      invocationMetadata :=
        some { (log.invocationMetadata.getD {}) with
               isFailed := some true } }
  else log

/-- JS `a || b` on an optional boolean and a boolean (`undefined`/`false` falsy). -/
def jsOrBool (a : Option Bool) (b : Bool) : Option Bool :=
  if a = some true then a else some b

/-- Embedding of `parseLambdaTimeoutOrMessage`. -/
def parseLambdaTimeoutOrMessage (log : Log) (spcParts : List Str) : Log :=
  if 3 ≤ spcParts.length ∧ tsShapeMs (spcParts.headD []) = true ∧
      idShape (spcParts.getD 1 []) = true then
    let msg := jsJoin ' ' (spcParts.drop 2)
    let failed := jsStartsWith "Task timed out after".toList msg
    let md := log.invocationMetadata.getD {}
    { log with
      requestId := some (spcParts.getD 1 []),
      level := some (if failed then .ERROR else .INFO),
      message := msg,
      invocationMetadata := some { md with
                                   isFailed := jsOrBool md.isFailed failed } }
  else log

/-- Embedding of `parseLambdaNodeLog`.  When its guard matches, the source's
first statement is `log.requestId = requestId = ...` where `requestId` is an
undeclared identifier; the file is an ES module, hence strict-mode code, so
that assignment raises a `ReferenceError` before any field of `log` has been
written.  We model the raised exception as `Except.error ()` with the log
unchanged; when the guard does not match the function is a no-op (`Except.ok`). -/
def parseLambdaNodeLog (log : Log) (tabParts : List Str) : Except Unit Log :=
  if 3 ≤ tabParts.length ∧ tsShapeMs (tabParts.headD []) = true then .error ()
  else .ok log

/-- The level assigned to a bracketed tag by `parseLambdaPythonLog`:
`[INFO]`, `[WARNING]`, `[ERROR]`, `[CRITICAL]` map to INFO/WARN/ERROR/ERROR,
anything else to INFO. -/
def pythonTagLevel (tag : Str) : LogLevel :=
  if tag = "[INFO]".toList then .INFO
  else if tag = "[WARNING]".toList then .WARN
  else if tag = "[ERROR]".toList ∨ tag = "[CRITICAL]".toList then .ERROR
  else .INFO

/-- Embedding of `parseLambdaPythonLog`. -/
def parseLambdaPythonLog (log : Log) (tabParts : List Str) : Log :=
  if 4 ≤ tabParts.length ∧ tsShapePy (tabParts.getD 1 []) = true ∧
      idShape (tabParts.getD 2 []) = true then
    let tag := tabParts.headD []
    let lv : LogLevel := pythonTagLevel tag
    { log with
      requestId := some (tabParts.getD 2 []),
      level := some lv,
      message := tag ++ ' ' :: jsJoin '\t' (tabParts.drop 3) }
  else log

/-- Embedding of `parseLambdaPythonTraceback`. -/
def parseLambdaPythonTraceback (log : Log) : Log :=
  if hasTraceback log.message = true then
    { log with
      level := some .ERROR,
      invocationMetadata :=
        some { (log.invocationMetadata.getD {}) with
               isFailed := some true } }
  else log

/-- The initial `Log` object built at the top of `parseLogMetadata`
(trimmed message, no level, no request id, no metadata). -/
def classifyBase (event : RawLogEvent) : Log :=
  { id := event.eventId, message := jsTrim event.message,
    timestamp := event.timestamp, logStream := event.logStreamName }

/-- Embedding of `parseLogMetadata`.  The source calls the matchers in `||`
chains; every matcher returns `undefined`, so within one chain each call runs
(composition), while a chain guarded by `log.level ||` is skipped once a level
is set.  The runtime-family sections run inside the enclosing `try`; the
`ReferenceError` from `parseLambdaNodeLog` aborts the `try` block and is
swallowed by the empty `catch`. -/
def parseLogMetadata (event : RawLogEvent) (runtime : Str) : Log :=
  let log := classifyBase event
  let log := parseLambdaREPORT (parseLambdaEND (parseLambdaSTART log))
  let spcParts := jsSplit ' ' log.message
  let log :=
    if log.level.isSome then log
    else parseLambdaTimeoutOrMessage (parseLambdaExited
      (parseLambdaModuleInitializationError (parseLambdaUnknownApplicationError log))
      spcParts) spcParts
  let tabParts := jsSplit '\t' log.message
  let nodeRes : Log × Bool :=
    if jsStartsWith "nodejs".toList runtime then
      if log.level.isSome then (log, false)
      else
        match parseLambdaNodeLog log tabParts with
        | .ok l => (l, false)
        | .error _ => (log, true)
    else (log, false)
  let log := nodeRes.1
  let log :=
    if nodeRes.2 then log
    else if jsStartsWith "python".toList runtime then
      if log.level.isSome then log
      else parseLambdaPythonTraceback (parseLambdaPythonLog log tabParts)
    else log
  if log.level.isSome then log else { log with level := some .INFO }

/-- An invocation record under construction or emitted (source `Invocation`).
REPORT metadata values are strings, as produced by the classifier. -/
structure Invocation where
  logs : List Str := []
  requestId : Option Str := none
  logStream : Option Str := none
  firstLineTime : Option Nat := none
  startTime : Option Nat := none
  endTime : Option Nat := none
  duration : Option Str := none
  memSize : Option Str := none
  memUsed : Option Str := none
  xrayTraceId : Option Str := none
  logLevel : LogLevel := .INFO
deriving DecidableEq, Repr

/-- The source's `{ logs: [], logLevel: "INFO" }` fresh accumulator. -/
def freshInvocation : Invocation := {}

/-- JS truthiness of an optional string (`undefined` and `""` are falsy). -/
def jsTruthyStr : Option Str → Bool
  | none => false
  | some s => !s.isEmpty

/-- JS `a || b` backfill on optional strings. -/
def jsOrStr (a b : Option Str) : Option Str :=
  if jsTruthyStr a then a else b

/-- JS truthiness of an optional epoch-millisecond time (`undefined` and `0` falsy). -/
def jsTruthyTime : Option Nat → Bool
  | none => false
  | some t => t != 0

/-- JS `a || ts` backfill of a time field with a number. -/
def jsOrTime (a : Option Nat) (ts : Nat) : Option Nat :=
  if jsTruthyTime a then a else some ts

/-- Embedding of `currentInvocation.logs.length > 0 && invocations.push(currentInvocation)`. -/
def flushIfNonEmpty (cur : Invocation) (out : List Invocation) : List Invocation :=
  if 0 < cur.logs.length then out ++ [cur] else out

/-- Embedding of the per-line stream-boundary check at the top of the
grouping loop: a stream different from the accumulator's flushes it. -/
def streamCheck (log : Log) (st : Invocation × List Invocation) :
    Invocation × List Invocation :=
  if some log.logStream = st.1.logStream then st
  else (freshInvocation, flushIfNonEmpty st.1 st.2)

/-- The accumulator created by the START branch of the grouping loop. -/
def startInvocation (log : Log) : Invocation :=
  { logs := [log.message], requestId := log.requestId, logStream := some log.logStream,
    firstLineTime := some log.timestamp, startTime := some log.timestamp }

/-- The invocation closed and emitted by the REPORT branch of the grouping loop. -/
def reportClose (cur : Invocation) (log : Log) : Invocation :=
  { cur with
    logs := cur.logs ++ [log.message],
    requestId := jsOrStr cur.requestId log.requestId,
    logStream := some log.logStream,
    firstLineTime := jsOrTime cur.firstLineTime log.timestamp,
    endTime := some log.timestamp,
    duration := log.invocationMetadata.bind InvMeta.duration,
    memSize := log.invocationMetadata.bind InvMeta.memSize,
    memUsed := log.invocationMetadata.bind InvMeta.memUsed,
    xrayTraceId := log.invocationMetadata.bind InvMeta.xrayTraceId }

/-- Embedding of the aggregate-level update of the default branch:
`log.level === "ERROR" ? "ERROR" : (log.level === "WARN" && cur !== "ERROR" ? "WARN" : "INFO")`. -/
def nextLogLevel (lv : Option LogLevel) (cur : LogLevel) : LogLevel :=
  if lv = some .ERROR then .ERROR
  else if lv = some .WARN ∧ cur ≠ .ERROR then .WARN
  else .INFO

/-- The accumulator after the default (INFO/WARN/ERROR/END) branch of the loop. -/
def appendBody (cur : Invocation) (log : Log) : Invocation :=
  { cur with
    logs := cur.logs ++ [log.message],
    requestId := jsOrStr cur.requestId log.requestId,
    logStream := some log.logStream,
    firstLineTime := jsOrTime cur.firstLineTime log.timestamp,
    logLevel := nextLogLevel log.level cur.logLevel }

/-- One iteration of the grouping loop of `groupLogs` as an explicit step on
the state (current accumulator, emitted invocations). -/
def groupStep (st : Invocation × List Invocation) (log : Log) :
    Invocation × List Invocation :=
  let st := streamCheck log st
  match log.level with
  | some .START => (startInvocation log, flushIfNonEmpty st.1 st.2)
  | some .REPORT => (freshInvocation, st.2 ++ [reportClose st.1 log])
  | _ => (appendBody st.1 log, st.2)

/-- Stable insertion into a sorted list: `a` goes before the first element `b`
with `le a b`.  Together with `insSortBy` this models JS `Array.prototype.sort`
(stable, ascending for a consistent comparator). -/
def insertIn (le : α → α → Bool) (a : α) : List α → List α
  | [] => [a]
  | b :: l => if le a b then a :: b :: l else b :: insertIn le a l

/-- Stable sort by the boolean relation `le` (insertion sort). -/
def insSortBy (le : α → α → Bool) : List α → List α
  | [] => []
  | a :: l => insertIn le a (insSortBy le l)

/-- Embedding of the final comparator `(a, b) => b.firstLineTime - a.firstLineTime`:
a JS subtraction involving `undefined` is `NaN`, which the sort routine treats
as `0` (elements compare equal). -/
def cmpInvocation (a b : Invocation) : Int :=
  match b.firstLineTime, a.firstLineTime with
  | some tb, some ta => (tb : Int) - (ta : Int)
  | _, _ => 0

/-- The non-strict order induced by `cmpInvocation` (comparator result at most 0). -/
def invLe (a b : Invocation) : Bool :=
  decide (cmpInvocation a b ≤ 0)

/-- Embedding of `groupLogs` up to (but not including) the final sort:
the fold over the classified lines plus the end-of-input flush. -/
def groupLogsPreSort (logs : List Log) : List Invocation :=
  let st := logs.foldl groupStep (freshInvocation, [])
  flushIfNonEmpty st.1 st.2

/-- Embedding of `groupLogs`: fold, final flush, then the descending stable
sort by first-line time. -/
def groupLogs (logs : List Log) : List Invocation :=
  insSortBy invLe (groupLogsPreSort logs)

/-- Embedding of remeda's `uniqBy` on the event id (first occurrence wins),
with the set of already-seen ids made explicit. -/
def uniqByAux (seen : List Str) : List RawLogEvent → List RawLogEvent
  | [] => []
  | e :: rest =>
    if e.eventId ∈ seen then uniqByAux seen rest
    else e :: uniqByAux (e.eventId :: seen) rest

/-- Embedding of `uniqBy(events, (event) => event.eventId)`. -/
def uniqByEventId (evts : List RawLogEvent) : List RawLogEvent :=
  uniqByAux [] evts

/-- The sort key materialized by `sortLogs`: `` `${log.logStreamName}-${log.eventId}` ``. -/
def sortKey (e : RawLogEvent) : Str :=
  e.logStreamName ++ '-' :: e.eventId

/-- Lexicographic (code-unit) comparison of JS strings: `a <= b`. -/
def listCharLe : Str → Str → Bool
  | [], _ => true
  | _ :: _, [] => false
  | a :: as, b :: bs => if a = b then listCharLe as bs else decide (a < b)

/-- Strict lexicographic comparison of JS strings: `a < b`. -/
def listCharLt (a b : Str) : Bool :=
  listCharLe a b && !(a == b)

/-- The comparator of `sortLogs` as a non-strict order on events. -/
def evtLe (a b : RawLogEvent) : Bool :=
  listCharLe (sortKey a) (sortKey b)

/-- Embedding of `sortLogs`: stable ascending sort by the concatenated key. -/
def sortLogs (evts : List RawLogEvent) : List RawLogEvent :=
  insSortBy evtLe evts

/-- The event normalizer of `useLogsQuery`: deduplicate by event id, then sort. -/
def normalizeEvents (evts : List RawLogEvent) : List RawLogEvent :=
  sortLogs (uniqByEventId evts)

/-- The full pipeline of `useLogsQuery` on a batch of raw events:
normalize, classify each line, group into invocations. -/
def processLogs (evts : List RawLogEvent) (runtime : Str) : List Invocation :=
  groupLogs ((normalizeEvents evts).map (parseLogMetadata · runtime))

/-! Lemmas about the stable insertion sort. -/

theorem insertIn_perm (le : α → α → Bool) (a : α) :
    ∀ l : List α, (insertIn le a l).Perm (a :: l)
  | [] => List.Perm.refl _
  | b :: t => by
    simp only [insertIn]
    split
    · exact List.Perm.refl _
    · exact ((insertIn_perm le a t).cons b).trans (List.Perm.swap a b t)

theorem insSortBy_perm (le : α → α → Bool) :
    ∀ l : List α, (insSortBy le l).Perm l
  | [] => List.Perm.refl _
  | a :: t =>
    (insertIn_perm le a (insSortBy le t)).trans ((insSortBy_perm le t).cons a)

theorem mem_insertIn (le : α → α → Bool) (a x : α) (l : List α) :
    x ∈ insertIn le a l ↔ x = a ∨ x ∈ l := by
  rw [(insertIn_perm le a l).mem_iff, List.mem_cons]

theorem mem_insSortBy (le : α → α → Bool) (x : α) (l : List α) :
    x ∈ insSortBy le l ↔ x ∈ l :=
  (insSortBy_perm le l).mem_iff

theorem pairwise_insertIn (le : α → α → Bool) (P : α → Prop)
    (htot : ∀ x y, P x → P y → le x y = true ∨ le y x = true)
    (htrans : ∀ x y z, P x → P y → P z → le x y = true → le y z = true → le x z = true)
    (a : α) (ha : P a) :
    ∀ l : List α, (∀ x ∈ l, P x) → l.Pairwise (fun x y => le x y = true) →
      (insertIn le a l).Pairwise (fun x y => le x y = true)
  | [], _, _ => by simp [insertIn]
  | b :: t, hP, hpw => by
    have hPb : P b := hP b (List.mem_cons_self b t)
    have hPt : ∀ x ∈ t, P x := fun x hx => hP x (List.mem_cons_of_mem b hx)
    rcases List.pairwise_cons.mp hpw with ⟨hb, hpt⟩
    simp only [insertIn]
    split
    · refine List.pairwise_cons.mpr ⟨?_, hpw⟩
      intro y hy
      rcases List.mem_cons.mp hy with rfl | hyt
      · assumption
      · exact htrans a b y ha hPb (hPt y hyt) (by assumption) (hb y hyt)
    · rename_i hab
      refine List.pairwise_cons.mpr ⟨?_, ?_⟩
      · intro y hy
        rcases (mem_insertIn le a y t).mp hy with heq | hyt
        · subst heq
          rcases htot y b ha hPb with h | h
          · exact absurd h hab
          · exact h
        · exact hb y hyt
      · exact pairwise_insertIn le P htot htrans a ha t hPt hpt

theorem pairwise_insSortBy (le : α → α → Bool) (P : α → Prop)
    (htot : ∀ x y, P x → P y → le x y = true ∨ le y x = true)
    (htrans : ∀ x y z, P x → P y → P z → le x y = true → le y z = true → le x z = true) :
    ∀ l : List α, (∀ x ∈ l, P x) →
      (insSortBy le l).Pairwise (fun x y => le x y = true)
  | [], _ => by simp [insSortBy]
  | a :: t, hP => by
    have ha : P a := hP a (List.mem_cons_self a t)
    have hPt : ∀ x ∈ t, P x := fun x hx => hP x (List.mem_cons_of_mem a hx)
    refine pairwise_insertIn le P htot htrans a ha (insSortBy le t) ?_ ?_
    · intro x hx
      exact hPt x ((mem_insSortBy le x t).mp hx)
    · exact pairwise_insSortBy le P htot htrans t hPt

theorem filter_insertIn (le : α → α → Bool) (q : α → Bool)
    (Hq : ∀ x y, q x = true → q y = true → le x y = true) (a : α) :
    ∀ l : List α, (insertIn le a l).filter q =
      if q a then a :: l.filter q else l.filter q
  | [] => by
    simp [insertIn, List.filter_cons]
  | b :: t => by
    simp only [insertIn]
    split
    · rw [List.filter_cons]
    · rename_i hab
      by_cases hqa : q a = true
      · by_cases hqb : q b = true
        · exact absurd (Hq a b hqa hqb) hab
        · simp [List.filter_cons, hqa, hqb, filter_insertIn le q Hq a t]
      · simp [List.filter_cons, hqa, filter_insertIn le q Hq a t]

theorem filter_insSortBy (le : α → α → Bool) (q : α → Bool)
    (Hq : ∀ x y, q x = true → q y = true → le x y = true) :
    ∀ l : List α, (insSortBy le l).filter q = l.filter q
  | [] => rfl
  | a :: t => by
    rw [insSortBy, filter_insertIn le q Hq a (insSortBy le t),
      filter_insSortBy le q Hq t, List.filter_cons]

/-! Lemmas about the lexicographic string order. -/

theorem listCharLe_total : ∀ a b : Str, listCharLe a b = true ∨ listCharLe b a = true
  | [], _ => Or.inl rfl
  | _ :: _, [] => Or.inr rfl
  | x :: xs, y :: ys => by
    by_cases h : x = y
    · subst h
      simpa [listCharLe] using listCharLe_total xs ys
    · rcases lt_or_gt_of_ne h with h' | h'
      · left
        simp [listCharLe, h, h']
      · right
        simp [listCharLe, Ne.symm h, h']

/-! Lemmas about the grouping fold. -/

/-- Messages held by a grouping state: those of the flushed invocations,
in order, followed by those of the current accumulator. -/
def stateMsgs (st : Invocation × List Invocation) : List Str :=
  (st.2.map Invocation.logs).flatten ++ st.1.logs

theorem freshInvocation_logs : freshInvocation.logs = [] := rfl

theorem flushIfNonEmpty_logs (cur : Invocation) (out : List Invocation) :
    ((flushIfNonEmpty cur out).map Invocation.logs).flatten =
      (out.map Invocation.logs).flatten ++ cur.logs := by
  unfold flushIfNonEmpty
  split
  · simp
  · rename_i h
    have hnil : cur.logs = [] := by
      cases hl : cur.logs with
      | nil => rfl
      | cons _ _ => exact absurd (by simp [hl]) h
    simp [hnil]

theorem streamCheck_msgs (log : Log) (st : Invocation × List Invocation) :
    stateMsgs (streamCheck log st) = stateMsgs st := by
  unfold streamCheck
  split
  · rfl
  · simp [stateMsgs, flushIfNonEmpty_logs, freshInvocation]

theorem groupStep_msgs (st : Invocation × List Invocation) (log : Log) :
    stateMsgs (groupStep st log) = stateMsgs st ++ [log.message] := by
  rw [← streamCheck_msgs log st]
  unfold groupStep
  rcases hlev : log.level with _ | lv
  · simp [hlev, stateMsgs, appendBody, List.append_assoc]
  · cases lv <;>
      simp [hlev, stateMsgs, appendBody, startInvocation, reportClose,
        flushIfNonEmpty_logs, freshInvocation, List.append_assoc]

theorem foldl_groupStep_msgs (ls : List Log) :
    ∀ st : Invocation × List Invocation,
      stateMsgs (ls.foldl groupStep st) = stateMsgs st ++ ls.map Log.message := by
  induction ls with
  | nil => intro st; simp
  | cons l t ih =>
    intro st
    rw [List.foldl_cons, ih (groupStep st l), groupStep_msgs, List.map_cons,
      List.append_assoc, List.singleton_append]

theorem groupLogsPreSort_msgs (ls : List Log) :
    ((groupLogsPreSort ls).map Invocation.logs).flatten = ls.map Log.message := by
  unfold groupLogsPreSort
  rw [flushIfNonEmpty_logs]
  simpa [stateMsgs, freshInvocation] using foldl_groupStep_msgs ls (freshInvocation, [])

/-- Well-formedness of an emitted invocation: at least one appended message
and a first-line time that got assigned. -/
def GoodInv (inv : Invocation) : Prop :=
  inv.logs ≠ [] ∧ inv.firstLineTime.isSome = true

/-- Invariant of the grouping fold state. -/
def GoodState (st : Invocation × List Invocation) : Prop :=
  (st.1.logs ≠ [] → st.1.firstLineTime.isSome = true) ∧ ∀ x ∈ st.2, GoodInv x

theorem jsOrTime_isSome (a : Option Nat) (ts : Nat) : (jsOrTime a ts).isSome = true := by
  cases a with
  | none => simp [jsOrTime, jsTruthyTime]
  | some t => by_cases h : t = 0 <;> simp [jsOrTime, jsTruthyTime, h]

theorem flushIfNonEmpty_good {cur : Invocation} {out : List Invocation}
    (h1 : cur.logs ≠ [] → cur.firstLineTime.isSome = true)
    (h2 : ∀ x ∈ out, GoodInv x) :
    ∀ x ∈ flushIfNonEmpty cur out, GoodInv x := by
  unfold flushIfNonEmpty
  split
  · rename_i hpos
    intro x hx
    rcases List.mem_append.mp hx with hx | hx
    · exact h2 x hx
    · rcases List.mem_singleton.mp hx with rfl
      have hne : x.logs ≠ [] := by
        intro hnil
        rw [hnil] at hpos
        simp at hpos
      exact ⟨hne, h1 hne⟩
  · exact h2

theorem streamCheck_good (log : Log) (st : Invocation × List Invocation)
    (h : GoodState st) : GoodState (streamCheck log st) := by
  unfold streamCheck
  split
  · exact h
  · exact ⟨fun hne => absurd rfl hne, flushIfNonEmpty_good h.1 h.2⟩

theorem groupStep_good (st : Invocation × List Invocation) (log : Log)
    (h : GoodState st) : GoodState (groupStep st log) := by
  have h' := streamCheck_good log st h
  unfold groupStep
  rcases hlev : log.level with _ | lv
  · exact ⟨fun _ => by simp [appendBody, jsOrTime_isSome], h'.2⟩
  · cases lv
    case START =>
      simp only [hlev]
      exact ⟨fun _ => by simp [startInvocation], flushIfNonEmpty_good h'.1 h'.2⟩
    case REPORT =>
      simp only [hlev]
      refine ⟨fun hne => absurd rfl hne, ?_⟩
      intro x hx
      rcases List.mem_append.mp hx with hx | hx
      · exact h'.2 x hx
      · rcases List.mem_singleton.mp hx with rfl
        exact ⟨by simp [reportClose], by simp [reportClose, jsOrTime_isSome]⟩
    all_goals
      exact ⟨fun _ => by simp [appendBody, jsOrTime_isSome], h'.2⟩

theorem foldl_groupStep_good (ls : List Log) :
    ∀ st : Invocation × List Invocation,
      GoodState st → GoodState (ls.foldl groupStep st) := by
  induction ls with
  | nil => intro st h; exact h
  | cons l t ih =>
    intro st h
    exact ih (groupStep st l) (groupStep_good st l h)

theorem groupLogsPreSort_good (ls : List Log) :
    ∀ x ∈ groupLogsPreSort ls, GoodInv x := by
  unfold groupLogsPreSort
  have h0 : GoodState ((freshInvocation, []) : Invocation × List Invocation) :=
    ⟨fun hne => absurd rfl hne, by simp⟩
  have h := foldl_groupStep_good ls (freshInvocation, []) h0
  exact flushIfNonEmpty_good h.1 h.2

theorem groupLogs_good (ls : List Log) :
    ∀ x ∈ groupLogs ls, GoodInv x := by
  intro x hx
  exact groupLogsPreSort_good ls x ((mem_insSortBy invLe x _).mp hx)

theorem invLe_total_good (a b : Invocation) (ha : GoodInv a) (hb : GoodInv b) :
    invLe a b = true ∨ invLe b a = true := by
  rcases Option.isSome_iff_exists.mp ha.2 with ⟨ta, hta⟩
  rcases Option.isSome_iff_exists.mp hb.2 with ⟨tb, htb⟩
  simp only [invLe, cmpInvocation, hta, htb, decide_eq_true_eq]
  omega

theorem invLe_trans_good (a b c : Invocation)
    (ha : GoodInv a) (hb : GoodInv b) (hc : GoodInv c)
    (hab : invLe a b = true) (hbc : invLe b c = true) : invLe a c = true := by
  rcases Option.isSome_iff_exists.mp ha.2 with ⟨ta, hta⟩
  rcases Option.isSome_iff_exists.mp hb.2 with ⟨tb, htb⟩
  rcases Option.isSome_iff_exists.mp hc.2 with ⟨tc, htc⟩
  simp only [invLe, cmpInvocation, hta, htb, htc, decide_eq_true_eq] at hab hbc ⊢
  omega

theorem invLe_of_eq_time (t : Nat) (x y : Invocation)
    (hx : (x.firstLineTime == some t) = true) (hy : (y.firstLineTime == some t) = true) :
    invLe x y = true := by
  rw [beq_iff_eq] at hx hy
  simp [invLe, cmpInvocation, hx, hy]

theorem listCharLe_trans :
    ∀ a b c : Str, listCharLe a b = true → listCharLe b c = true → listCharLe a c = true
  | [], _, _, _, _ => rfl
  | _ :: _, [], _, h, _ => by simp [listCharLe] at h
  | _ :: _, _ :: _, [], _, h => by simp [listCharLe] at h
  | x :: xs, y :: ys, z :: zs, h1, h2 => by
    by_cases hxy : x = y
    · subst hxy
      by_cases hxz : x = z
      · subst hxz
        simp only [listCharLe, if_pos rfl] at h1 h2 ⊢
        exact listCharLe_trans xs ys zs h1 h2
      · simpa [listCharLe, hxz] using h2
    · by_cases hyz : y = z
      · subst hyz
        simpa [listCharLe, hxy] using h1
      · simp only [listCharLe, if_neg hxy, if_neg hyz, decide_eq_true_eq] at h1 h2
        have hxz : x < z := lt_trans h1 h2
        simp [listCharLe, ne_of_lt hxz, hxz]

/-! Lemmas about the event normalizer. -/

theorem mem_map_eventId_uniqByAux :
    ∀ (evts : List RawLogEvent) (seen : List Str) (i : Str),
      i ∈ (uniqByAux seen evts).map RawLogEvent.eventId ↔
        (i ∈ evts.map RawLogEvent.eventId ∧ i ∉ seen)
  | [], seen, i => by simp [uniqByAux]
  | e :: t, seen, i => by
    by_cases h : e.eventId ∈ seen
    · rw [uniqByAux, if_pos h, mem_map_eventId_uniqByAux t seen i]
      simp only [List.map_cons, List.mem_cons]
      constructor
      · rintro ⟨hm, hs⟩
        exact ⟨Or.inr hm, hs⟩
      · rintro ⟨heq | hm, hs⟩
        · subst heq
          exact absurd h hs
        · exact ⟨hm, hs⟩
    · rw [uniqByAux, if_neg h]
      simp only [List.map_cons, List.mem_cons,
        mem_map_eventId_uniqByAux t (e.eventId :: seen) i]
      constructor
      · rintro (heq | ⟨hm, hs⟩)
        · subst heq
          exact ⟨Or.inl rfl, h⟩
        · exact ⟨Or.inr hm, fun c => hs (Or.inr c)⟩
      · rintro ⟨heq | hm, hs⟩
        · exact Or.inl heq
        · by_cases hie : i = e.eventId
          · exact Or.inl hie
          · refine Or.inr ⟨hm, ?_⟩
            intro c
            rcases c with c | c
            · exact hie c
            · exact hs c

theorem nodup_map_eventId_uniqByAux :
    ∀ (evts : List RawLogEvent) (seen : List Str),
      ((uniqByAux seen evts).map RawLogEvent.eventId).Nodup
  | [], seen => by simp [uniqByAux]
  | e :: t, seen => by
    by_cases h : e.eventId ∈ seen
    · rw [uniqByAux, if_pos h]
      exact nodup_map_eventId_uniqByAux t seen
    · rw [uniqByAux, if_neg h]
      simp only [List.map_cons, List.nodup_cons]
      refine ⟨?_, nodup_map_eventId_uniqByAux t (e.eventId :: seen)⟩
      intro c
      rcases (mem_map_eventId_uniqByAux t (e.eventId :: seen) e.eventId).mp c with ⟨_, hs⟩
      exact hs (List.mem_cons_self _ _)

/-! Guard predicates and no-match lemmas for the classifier cascade. -/

/-- Guard of the generic timestamp+id matcher `parseLambdaTimeoutOrMessage`. -/
def timeoutGuard (m : Str) : Prop :=
  3 ≤ (jsSplit ' ' m).length ∧ tsShapeMs ((jsSplit ' ' m).headD []) = true ∧
    idShape ((jsSplit ' ' m).getD 1 []) = true

/-- Guard of `parseLambdaExited`. -/
def exitedGuard (m : Str) : Prop :=
  3 ≤ (jsSplit ' ' m).length ∧ (jsSplit ' ' m).headD [] = "RequestId:".toList ∧
    idShape ((jsSplit ' ' m).getD 1 []) = true

/-- Guard of the JS-family matcher `parseLambdaNodeLog`. -/
def nodeGuard (m : Str) : Prop :=
  3 ≤ (jsSplit '\t' m).length ∧ tsShapeMs ((jsSplit '\t' m).headD []) = true

/-- Guard of the scripting-family matcher `parseLambdaPythonLog`. -/
def pythonGuard (m : Str) : Prop :=
  4 ≤ (jsSplit '\t' m).length ∧ tsShapePy ((jsSplit '\t' m).getD 1 []) = true ∧
    idShape ((jsSplit '\t' m).getD 2 []) = true

/-- Negation of every family-agnostic matcher guard for a (trimmed) message. -/
def noGenericMatch (m : Str) : Prop :=
  jsStartsWith "START RequestId: ".toList m = false ∧
  jsStartsWith "END RequestId: ".toList m = false ∧
  jsStartsWith "REPORT RequestId: ".toList m = false ∧
  jsStartsWith "Unknown application error occurred".toList m = false ∧
  jsStartsWith "module initialization error".toList m = false ∧
  ¬ exitedGuard m ∧
  ¬ timeoutGuard m

/-- Negation of the family-specific matcher guards selected by the runtime hint. -/
def noFamilyMatch (m rt : Str) : Prop :=
  (jsStartsWith "nodejs".toList rt = true → ¬ nodeGuard m) ∧
  (jsStartsWith "python".toList rt = true → ¬ pythonGuard m ∧ hasTraceback m = false)

/-- The (trimmed) message matches none of the classifier's matchers. -/
def noMatcherMatches (ev : RawLogEvent) (rt : Str) : Prop :=
  noGenericMatch (jsTrim ev.message) ∧ noFamilyMatch (jsTrim ev.message) rt

theorem parseLambdaSTART_noop {log : Log}
    (h : jsStartsWith "START RequestId: ".toList log.message = false) :
    parseLambdaSTART log = log := by
  unfold parseLambdaSTART
  rw [if_neg (by simp only [h]; decide)]

theorem parseLambdaEND_noop {log : Log}
    (h : jsStartsWith "END RequestId: ".toList log.message = false) :
    parseLambdaEND log = log := by
  unfold parseLambdaEND
  rw [if_neg (by simp only [h]; decide)]

theorem parseLambdaREPORT_noop {log : Log}
    (h : jsStartsWith "REPORT RequestId: ".toList log.message = false) :
    parseLambdaREPORT log = log := by
  unfold parseLambdaREPORT
  rw [if_neg (by simp only [h]; decide)]

theorem parseLambdaUnknownApplicationError_noop {log : Log}
    (h : jsStartsWith "Unknown application error occurred".toList log.message = false) :
    parseLambdaUnknownApplicationError log = log := by
  unfold parseLambdaUnknownApplicationError
  rw [if_neg (by simp only [h]; decide)]

theorem parseLambdaModuleInitializationError_noop {log : Log}
    (h : jsStartsWith "module initialization error".toList log.message = false) :
    parseLambdaModuleInitializationError log = log := by
  unfold parseLambdaModuleInitializationError
  rw [if_neg (by simp only [h]; decide)]

theorem parseLambdaExited_noop {log : Log} {spc : List Str}
    (h : ¬(3 ≤ spc.length ∧ spc.headD [] = "RequestId:".toList ∧
        idShape (spc.getD 1 []) = true)) :
    parseLambdaExited log spc = log := by
  unfold parseLambdaExited
  rw [if_neg h]

theorem parseLambdaTimeoutOrMessage_noop {log : Log} {spc : List Str}
    (h : ¬(3 ≤ spc.length ∧ tsShapeMs (spc.headD []) = true ∧
        idShape (spc.getD 1 []) = true)) :
    parseLambdaTimeoutOrMessage log spc = log := by
  unfold parseLambdaTimeoutOrMessage
  rw [if_neg h]

theorem parseLambdaNodeLog_ok {log : Log} {tab : List Str}
    (h : ¬(3 ≤ tab.length ∧ tsShapeMs (tab.headD []) = true)) :
    parseLambdaNodeLog log tab = .ok log := by
  unfold parseLambdaNodeLog
  rw [if_neg h]

theorem parseLambdaPythonLog_noop {log : Log} {tab : List Str}
    (h : ¬(4 ≤ tab.length ∧ tsShapePy (tab.getD 1 []) = true ∧
        idShape (tab.getD 2 []) = true)) :
    parseLambdaPythonLog log tab = log := by
  unfold parseLambdaPythonLog
  rw [if_neg h]

theorem parseLambdaPythonTraceback_noop {log : Log}
    (h : hasTraceback log.message = false) :
    parseLambdaPythonTraceback log = log := by
  unfold parseLambdaPythonTraceback
  rw [if_neg (by simp only [h]; decide)]

/-! Structure of the split head, used to relate the space-split tokens to
the prefix matchers. -/

theorem jsSplit_ne_nil (sep : Char) : ∀ s : Str, jsSplit sep s ≠ []
  | [] => by simp [jsSplit]
  | c :: rest => by
    rw [jsSplit]
    rcases h : jsSplit sep rest with _ | ⟨t, ts⟩
    · simp
    · by_cases hc : c = sep <;> simp [hc]

theorem jsSplit_headD (sep : Char) : ∀ s : Str,
    (jsSplit sep s).headD [] = s.takeWhile (fun c => c != sep)
  | [] => rfl
  | c :: rest => by
    unfold jsSplit
    cases h : jsSplit sep rest with
    | nil => exact absurd h (jsSplit_ne_nil sep rest)
    | cons t ts =>
      have ih := jsSplit_headD sep rest
      rw [h] at ih
      simp only [List.headD_cons] at ih
      by_cases hc : c = sep
      · subst hc
        simp [List.takeWhile_cons]
      · simp [hc, List.takeWhile_cons, ih]

theorem takeWhile_append_stop (w t : Str) (hw : ∀ c ∈ w, (c != ' ') = true) :
    (w ++ ' ' :: t).takeWhile (fun c => c != ' ') = w := by
  induction w with
  | nil => simp [List.takeWhile_cons]
  | cons c w ih =>
    have hc := hw c (List.mem_cons_self c w)
    simp only [List.cons_append, List.takeWhile_cons, hc, if_true]
    rw [ih (fun x hx => hw x (List.mem_cons_of_mem c hx))]

/-- A message whose first space-token is an ISO-8601 millisecond timestamp
cannot start with a prefix whose space-free first word is not such a
timestamp. -/
theorem tsShapeMs_head_not_startsWith (m w r : Str)
    (hw : ∀ c ∈ w, (c != ' ') = true) (hshape : tsShapeMs w = false)
    (hts : tsShapeMs ((jsSplit ' ' m).headD []) = true) :
    jsStartsWith (w ++ ' ' :: r) m = false := by
  cases hsw : jsStartsWith (w ++ ' ' :: r) m with
  | false => rfl
  | true =>
    exfalso
    unfold jsStartsWith at hsw
    obtain ⟨t2, ht2⟩ := List.isPrefixOf_iff_prefix.mp hsw
    rw [← ht2, jsSplit_headD, List.append_assoc, List.cons_append,
      takeWhile_append_stop w _ hw] at hts
    rw [hshape] at hts
    exact Bool.false_ne_true hts

theorem classifyBase_level (ev : RawLogEvent) : (classifyBase ev).level = none := rfl

theorem classifyBase_message (ev : RawLogEvent) :
    (classifyBase ev).message = jsTrim ev.message := rfl

/-! Concrete fixtures used by the per-claim theorems and witnesses. -/

/-- A classified INFO line (used for the aggregate-level fixtures). -/
def logInfoA : Log :=
  { id := "1".toList, message := "m1".toList, timestamp := 1,
    logStream := "s".toList, level := some .INFO }

/-- A classified ERROR line on the same stream. -/
def logErrB : Log :=
  { id := "2".toList, message := "m2".toList, timestamp := 2,
    logStream := "s".toList, level := some .ERROR }

/-- A second classified INFO line on the same stream. -/
def logInfoC : Log :=
  { id := "3".toList, message := "m3".toList, timestamp := 3,
    logStream := "s".toList, level := some .INFO }

/-- An INFO line on stream `s1` at time 10. -/
def logS1 : Log :=
  { id := "a".toList, message := "m1".toList, timestamp := 10,
    logStream := "s1".toList, level := some .INFO }

/-- An INFO line on stream `s2` at time 20. -/
def logS2 : Log :=
  { id := "b".toList, message := "m2".toList, timestamp := 20,
    logStream := "s2".toList, level := some .INFO }

/-- The single invocation produced by grouping `[logInfoA]`. -/
def invSingle : Invocation :=
  { logs := ["m1".toList], logStream := some "s".toList, firstLineTime := some 1 }

/-- A raw event whose message matches no classifier pattern and carries
surrounding whitespace. -/
def evPadded : RawLogEvent :=
  { eventId := "e".toList, logStreamName := "s".toList, timestamp := 5,
    message := " hello ".toList }

/-- A well-formed JS-family (nodejs) tab-separated INFO line. -/
def nodeMsg : Str :=
  "2019-11-12T20:00:30.183Z\tcc81b998-c7de-46fb-a9ef-3423ccdcda98\tINFO\tlog hello".toList

/-- The raw event carrying `nodeMsg`. -/
def evNode : RawLogEvent :=
  { eventId := "n".toList, logStreamName := "s".toList, timestamp := 6, message := nodeMsg }

/-- A scripting-family (python) bracketed-tag INFO line whose body contains a
whitespace-bounded traceback marker. -/
def pyMsg : Str :=
  "[INFO]\t2019-11-12T20:00:30.183Z\tcc81b998-c7de-46fb-a9ef-3423ccdcda98\tx Traceback (most recent call last): y".toList

/-- The raw event carrying `pyMsg`. -/
def evPy : RawLogEvent :=
  { eventId := "p".toList, logStreamName := "s".toList, timestamp := 8, message := pyMsg }

/-- A scripting-family bracketed-tag WARNING line without traceback. -/
def evPyWarn : RawLogEvent :=
  { eventId := "q".toList, logStreamName := "s".toList, timestamp := 8,
    message := "[WARNING]\t2019-11-12T20:00:30.183Z\tcc81b998-c7de-46fb-a9ef-3423ccdcda98\thello".toList }

/-- The timeout line of the spec's Example D. -/
def evTimeout : RawLogEvent :=
  { eventId := "t".toList, logStreamName := "s".toList, timestamp := 7,
    message := "2022-01-01T00:00:00.000Z abcdefab-abcd-abcd-abcd-abcdefabcdef Task timed out after 6.00 seconds".toList }

/-- The REPORT line of the spec's Example B (duration 1 ms, memory size 128 MB,
max memory used 20 MB). -/
def reportMsg : Str :=
  "REPORT RequestId: 18269d91-6b89-4021-8b58-000000000000\tDuration: 1 ms\tMemory Size: 128 MB\tMax Memory Used: 20 MB".toList

/-- The raw event carrying `reportMsg`. -/
def evReport : RawLogEvent :=
  { eventId := "r".toList, logStreamName := "s".toList, timestamp := 9, message := reportMsg }

/-- The invocation expected from a batch holding only `evReport`. -/
def invReportOnly : Invocation :=
  { logs := [reportMsg],
    requestId := some "18269d91-6b89-4021-8b58-000000000000".toList,
    logStream := some "s".toList,
    firstLineTime := some 9, startTime := none, endTime := some 9,
    duration := some "1".toList, memSize := some "128".toList, memUsed := some "20".toList }

/-- An event whose stream name contains the separator used to build sort keys. -/
def evStreamDash : RawLogEvent :=
  { eventId := "a".toList, logStreamName := "a-b".toList, timestamp := 1, message := "x".toList }

/-- An event on the dash-free stream `a` with a larger event id. -/
def evStreamPlain : RawLogEvent :=
  { eventId := "c".toList, logStreamName := "a".toList, timestamp := 2, message := "y".toList }

/-! Claim theorems. -/

/-- C1: the claim says the aggregate severity level of an invocation is
monotonically non-decreasing as the grouper folds its lines, and that the
sequence INFO, ERROR, INFO ends at ERROR.  The code contradicts this: its
level update resets the aggregate to INFO whenever the incoming line is
neither ERROR nor WARN, so after INFO, ERROR, INFO the aggregate is back to
INFO, a downgrade from the intermediate ERROR. -/
theorem c1_aggregate_level_downgrades :
    (([logInfoA, logErrB].foldl groupStep (freshInvocation, [])).1.logLevel = .ERROR) ∧
    (([logInfoA, logErrB, logInfoC].foldl groupStep (freshInvocation, [])).1.logLevel = .INFO) ∧
    (groupLogs [logInfoA, logErrB, logInfoC]).map Invocation.logLevel = [.INFO] := by
  decide

/-- C6: every input line's message appears in exactly one output invocation's
log list; the concatenation of all output log lists is a permutation of the
input messages (so the total count is preserved and no line is dropped or
double-counted). -/
theorem c6_grouper_completeness (ls : List Log) :
    (((groupLogs ls).map Invocation.logs).flatten).Perm (ls.map Log.message) := by
  unfold groupLogs
  have hperm := ((insSortBy_perm invLe (groupLogsPreSort ls)).map Invocation.logs).flatten
  rwa [groupLogsPreSort_msgs] at hperm

/-- C10: every invocation emitted by the grouper has a non-empty log list. -/
theorem c10_invocations_nonempty (ls : List Log) (inv : Invocation)
    (h : inv ∈ groupLogs ls) : inv.logs ≠ [] :=
  (groupLogs_good ls inv h).1

/-- Witness for C10 at a concrete one-line batch. -/
theorem c10_invocations_nonempty_witness : invSingle.logs ≠ [] :=
  c10_invocations_nonempty [logInfoA] invSingle (by decide)

/-- C7: the output invocation sequence is sorted by first-line time descending
(consecutive entries have non-increasing first-line times), and entries with
equal first-line time keep their relative flush order (the sort is stable:
filtering the output at any fixed first-line time gives exactly the pre-sort
flush sequence at that time). -/
theorem c7_output_ordering_stable (ls : List Log) :
    (∀ (i : Nat) (h : i + 1 < (groupLogs ls).length) (ta tb : Nat),
        ((groupLogs ls).get ⟨i, Nat.lt_of_succ_lt h⟩).firstLineTime = some ta →
        ((groupLogs ls).get ⟨i + 1, h⟩).firstLineTime = some tb → tb ≤ ta) ∧
    (∀ t : Nat,
        (groupLogs ls).filter (fun inv => inv.firstLineTime == some t) =
          (groupLogsPreSort ls).filter (fun inv => inv.firstLineTime == some t)) := by
  constructor
  · intro i h ta tb hta htb
    have hpw : (groupLogs ls).Pairwise (fun x y => invLe x y = true) := by
      unfold groupLogs
      exact pairwise_insSortBy invLe GoodInv invLe_total_good invLe_trans_good
        (groupLogsPreSort ls) (groupLogsPreSort_good ls)
    rw [List.pairwise_iff_get] at hpw
    have hle := hpw ⟨i, Nat.lt_of_succ_lt h⟩ ⟨i + 1, h⟩ (Nat.lt_succ_self i)
    simp only [invLe, cmpInvocation, hta, htb, decide_eq_true_eq] at hle
    omega
  · intro t
    unfold groupLogs
    exact filter_insSortBy invLe (fun inv => inv.firstLineTime == some t)
      (invLe_of_eq_time t) (groupLogsPreSort ls)

/-- Witness for C7 at a concrete two-stream batch (first-line times 10 and 20). -/
theorem c7_output_ordering_stable_witness :
    1 < (groupLogs [logS1, logS2]).length ∧ (10 : Nat) ≤ 20 ∧
    (groupLogs [logS1, logS2]).filter (fun inv => inv.firstLineTime == some 10) =
      (groupLogsPreSort [logS1, logS2]).filter (fun inv => inv.firstLineTime == some 10) := by
  refine ⟨by decide, ?_, (c7_output_ordering_stable [logS1, logS2]).2 10⟩
  exact (c7_output_ordering_stable [logS1, logS2]).1 0 (by decide) 20 10 (by decide) (by decide)

/-- C9: a REPORT line always closes the current accumulator immediately after
being appended to it (the grouping step emits it and resets the state), the
closed record carries the REPORT line's timestamp as end time; and a batch of
a single REPORT line (no START) yields exactly one invocation with end time
set, start time unset, the request id from the REPORT line, and
duration/memory size/memory used from the report's tab segments. -/
theorem c9_report_flush :
    (∀ (st : Invocation × List Invocation) (log : Log), log.level = some .REPORT →
        groupStep st log =
          (freshInvocation,
            (streamCheck log st).2 ++ [reportClose (streamCheck log st).1 log])) ∧
    (∀ (cur : Invocation) (log : Log),
        (reportClose cur log).logs = cur.logs ++ [log.message] ∧
        (reportClose cur log).endTime = some log.timestamp ∧
        (reportClose cur log).startTime = cur.startTime) ∧
    processLogs [evReport] "nodejs14.x".toList = [invReportOnly] := by
  refine ⟨?_, fun cur log => ⟨rfl, rfl, rfl⟩, by decide⟩
  intro st log h
  unfold groupStep
  simp only [h]

/-- Witness for C9's flush property at a concrete state and REPORT line. -/
theorem c9_report_flush_witness :
    groupStep (freshInvocation, []) (classifyBase evReport |>.level.getD .INFO |> fun _ =>
      { classifyBase evReport with level := some .REPORT }) =
      (freshInvocation,
        (streamCheck { classifyBase evReport with level := some .REPORT }
            (freshInvocation, [])).2 ++
          [reportClose
            (streamCheck { classifyBase evReport with level := some .REPORT }
              (freshInvocation, [])).1
            { classifyBase evReport with level := some .REPORT }]) :=
  c9_report_flush.1 (freshInvocation, []) _ rfl

/-- C5 counterexample: the normalizer orders by the dash-concatenated string
key, which disagrees with the lexicographic order on the pair (stream, id):
with streams `a-b` (id `a`) and `a` (id `c`), the event on stream `a-b` comes
first even though `a-b` is neither smaller than nor equal to `a`. -/
theorem c5_normalize_order_counterexample :
    normalizeEvents [evStreamDash, evStreamPlain] = [evStreamDash, evStreamPlain] ∧
    ¬(listCharLt evStreamDash.logStreamName evStreamPlain.logStreamName = true ∨
      (evStreamDash.logStreamName = evStreamPlain.logStreamName ∧
        listCharLt evStreamDash.eventId evStreamPlain.eventId = true)) := by
  decide

/-- C5 (amended): the normalized sequence has exactly one event per distinct
event identifier (ids are pairwise distinct and exactly the input ids), and is
sorted ascending by the concatenated key `` `${logStreamName}-${eventId}` ``
(not by the lexicographic order on the pair). -/
theorem c5_normalize_amended (evts : List RawLogEvent) :
    ((normalizeEvents evts).map RawLogEvent.eventId).Nodup ∧
    (∀ i : Str, i ∈ (normalizeEvents evts).map RawLogEvent.eventId ↔
        i ∈ evts.map RawLogEvent.eventId) ∧
    (normalizeEvents evts).Pairwise (fun a b => listCharLe (sortKey a) (sortKey b) = true) := by
  have hperm : (normalizeEvents evts).Perm (uniqByAux [] evts) := by
    unfold normalizeEvents sortLogs uniqByEventId
    exact insSortBy_perm evtLe _
  have hmap := hperm.map RawLogEvent.eventId
  refine ⟨?_, ?_, ?_⟩
  · exact hmap.nodup_iff.mpr (nodup_map_eventId_uniqByAux evts [])
  · intro i
    rw [hmap.mem_iff, mem_map_eventId_uniqByAux evts [] i]
    simp
  · have hpw := pairwise_insSortBy evtLe (fun _ => True)
      (fun x y _ _ => listCharLe_total (sortKey x) (sortKey y))
      (fun x y z _ _ _ hxy hyz => listCharLe_trans _ _ _ hxy hyz)
      (uniqByAux [] evts) (fun _ _ => trivial)
    unfold normalizeEvents sortLogs uniqByEventId
    exact hpw

/-- C3: the claim describes the intended JS-family tab parsing, but when the
guard (three or more tab tokens, first an ISO-8601 millisecond timestamp)
matches, the source assigns through the undeclared identifier `requestId`,
which in strict-mode (ES module) code raises a ReferenceError before writing
anything; the enclosing try/catch swallows it, so the line falls back to
level INFO with the message unchanged and no request id — not the parsed
level/message/request id the claim states. -/
theorem c3_node_parse_reference_error :
    (parseLambdaNodeLog {} (jsSplit '\t' nodeMsg)).isOk = false ∧
    (parseLogMetadata evNode "nodejs14.x".toList).level = some .INFO ∧
    (parseLogMetadata evNode "nodejs14.x".toList).message = nodeMsg ∧
    (parseLogMetadata evNode "nodejs14.x".toList).requestId = none := by
  decide

/-- C4 counterexample: on a scripting-runtime line that the bracketed-tag
matcher classifies as INFO (message rebuilt as `[INFO] ...`), the traceback
check is nevertheless applied afterwards — the matcher chain does not
short-circuit because each matcher returns `undefined` — and overwrites the
level to ERROR with the failure flag, contradicting the claim that the
traceback check is not applied to a tag-matched line. -/
theorem c4_python_tag_counterexample :
    (parseLogMetadata evPy "python3.8".toList).message =
      "[INFO] x Traceback (most recent call last): y".toList ∧
    (parseLogMetadata evPy "python3.8".toList).level = some .ERROR ∧
    ((parseLogMetadata evPy "python3.8".toList).invocationMetadata.bind InvMeta.isFailed) =
      some true := by
  decide

/-- C2 counterexample: a message carrying surrounding whitespace that matches
no classifier matcher is emitted at level INFO but with the message trimmed,
not verbatim: the classifier trims every message before matching. -/
theorem c2_unmatched_line_counterexample :
    noMatcherMatches evPadded "go1.x".toList ∧
    (parseLogMetadata evPadded "go1.x".toList).level = some .INFO ∧
    (parseLogMetadata evPadded "go1.x".toList).message ≠ evPadded.message := by
  refine ⟨?_, by decide, by decide⟩
  unfold noMatcherMatches noGenericMatch noFamilyMatch exitedGuard timeoutGuard nodeGuard
    pythonGuard
  decide

/-- C2 (amended): a normalized event whose message matches none of the
classifier's matchers yields a ClassifiedLine with level INFO whose message is
the raw message with leading and trailing whitespace removed (the classifier
trims first), and no other field set. -/
theorem c2_unmatched_line_amended (ev : RawLogEvent) (rt : Str)
    (h : noMatcherMatches ev rt) :
    parseLogMetadata ev rt = { classifyBase ev with level := some .INFO } := by
  obtain ⟨⟨h1, h2, h3, h4, h5, h6, h7⟩, hf1, hf2⟩ := h
  rw [exitedGuard] at h6
  rw [timeoutGuard] at h7
  have e1 : parseLambdaSTART (classifyBase ev) = classifyBase ev :=
    @parseLambdaSTART_noop (classifyBase ev) h1
  have e2 : parseLambdaEND (classifyBase ev) = classifyBase ev :=
    @parseLambdaEND_noop (classifyBase ev) h2
  have e3 : parseLambdaREPORT (classifyBase ev) = classifyBase ev :=
    @parseLambdaREPORT_noop (classifyBase ev) h3
  have e4 : parseLambdaUnknownApplicationError (classifyBase ev) = classifyBase ev :=
    @parseLambdaUnknownApplicationError_noop (classifyBase ev) h4
  have e5 : parseLambdaModuleInitializationError (classifyBase ev) = classifyBase ev :=
    @parseLambdaModuleInitializationError_noop (classifyBase ev) h5
  have e6 : parseLambdaExited (classifyBase ev) (jsSplit ' ' (classifyBase ev).message) =
      classifyBase ev :=
    @parseLambdaExited_noop (classifyBase ev) _ h6
  have e7 : parseLambdaTimeoutOrMessage (classifyBase ev)
      (jsSplit ' ' (classifyBase ev).message) = classifyBase ev :=
    @parseLambdaTimeoutOrMessage_noop (classifyBase ev) _ h7
  simp only [parseLogMetadata, e1, e2, e3, classifyBase_level, Option.isSome_none,
    Bool.false_eq_true, if_false, e4, e5, e6, e7]
  by_cases hn : jsStartsWith "nodejs".toList rt = true
  · have hng := hf1 hn
    rw [nodeGuard] at hng
    have eok : parseLambdaNodeLog (classifyBase ev) (jsSplit '\t' (classifyBase ev).message) =
        .ok (classifyBase ev) := @parseLambdaNodeLog_ok (classifyBase ev) _ hng
    by_cases hp : jsStartsWith "python".toList rt = true
    · obtain ⟨hpg, hpt⟩ := hf2 hp
      rw [pythonGuard] at hpg
      have epl : parseLambdaPythonLog (classifyBase ev) (jsSplit '\t' (classifyBase ev).message) =
          classifyBase ev := @parseLambdaPythonLog_noop (classifyBase ev) _ hpg
      have ept : parseLambdaPythonTraceback (classifyBase ev) = classifyBase ev :=
        @parseLambdaPythonTraceback_noop (classifyBase ev) hpt
      simp only [if_pos hn, if_pos hp, eok, classifyBase_level, Option.isSome_none,
        Bool.false_eq_true, if_false, epl, ept]
    · simp only [if_pos hn, if_neg hp, eok, classifyBase_level, Option.isSome_none,
        Bool.false_eq_true, if_false]
  · by_cases hp : jsStartsWith "python".toList rt = true
    · obtain ⟨hpg, hpt⟩ := hf2 hp
      rw [pythonGuard] at hpg
      have epl := @parseLambdaPythonLog_noop (classifyBase ev)
        (jsSplit '\t' (classifyBase ev).message) hpg
      have ept := @parseLambdaPythonTraceback_noop (classifyBase ev) hpt
      simp only [if_neg hn, if_pos hp, classifyBase_level, Option.isSome_none,
        Bool.false_eq_true, if_false, epl, ept]
    · simp only [if_neg hn, if_neg hp, classifyBase_level, Option.isSome_none,
        Bool.false_eq_true, if_false]

/-- Witness for the amended C2 at a concrete unmatched padded message. -/
theorem c2_unmatched_line_amended_witness :
    parseLogMetadata evPadded "go1.x".toList =
      { classifyBase evPadded with level := some .INFO } :=
  c2_unmatched_line_amended evPadded "go1.x".toList (by
    unfold noMatcherMatches noGenericMatch noFamilyMatch exitedGuard timeoutGuard nodeGuard
      pythonGuard
    decide)

theorem classifyBase_metadata (ev : RawLogEvent) :
    (classifyBase ev).invocationMetadata = none := rfl

/-- C8: a line whose (trimmed) message space-splits into an ISO-8601
millisecond timestamp, a 36-character id, and a remainder classifies with the
remainder as its message, the id as request id, level ERROR with the failure
flag set exactly when the remainder starts with "Task timed out after", and
level INFO (failure flag false) otherwise — for every runtime hint. -/
theorem c8_timeout_classification (ev : RawLogEvent) (rt : Str)
    (hg : timeoutGuard (jsTrim ev.message)) :
    ((parseLogMetadata ev rt).level =
      some (if jsStartsWith "Task timed out after".toList
          (jsJoin ' ' ((jsSplit ' ' (jsTrim ev.message)).drop 2)) = true
        then .ERROR else .INFO)) ∧
    (parseLogMetadata ev rt).message =
      jsJoin ' ' ((jsSplit ' ' (jsTrim ev.message)).drop 2) ∧
    (parseLogMetadata ev rt).requestId =
      some ((jsSplit ' ' (jsTrim ev.message)).getD 1 []) ∧
    ((parseLogMetadata ev rt).invocationMetadata.bind InvMeta.isFailed =
      some (jsStartsWith "Task timed out after".toList
        (jsJoin ' ' ((jsSplit ' ' (jsTrim ev.message)).drop 2)))) := by
  obtain ⟨hlen, hts, hid⟩ := hg
  have h1 : jsStartsWith "START RequestId: ".toList (jsTrim ev.message) = false :=
    tsShapeMs_head_not_startsWith (jsTrim ev.message) "START".toList "RequestId: ".toList
      (by decide) (by decide) hts
  have h2 : jsStartsWith "END RequestId: ".toList (jsTrim ev.message) = false :=
    tsShapeMs_head_not_startsWith (jsTrim ev.message) "END".toList "RequestId: ".toList
      (by decide) (by decide) hts
  have h3 : jsStartsWith "REPORT RequestId: ".toList (jsTrim ev.message) = false :=
    tsShapeMs_head_not_startsWith (jsTrim ev.message) "REPORT".toList "RequestId: ".toList
      (by decide) (by decide) hts
  have h4 : jsStartsWith "Unknown application error occurred".toList (jsTrim ev.message) = false :=
    tsShapeMs_head_not_startsWith (jsTrim ev.message) "Unknown".toList
      "application error occurred".toList (by decide) (by decide) hts
  have h5 : jsStartsWith "module initialization error".toList (jsTrim ev.message) = false :=
    tsShapeMs_head_not_startsWith (jsTrim ev.message) "module".toList
      "initialization error".toList (by decide) (by decide) hts
  have h6 : ¬(3 ≤ (jsSplit ' ' (jsTrim ev.message)).length ∧
      (jsSplit ' ' (jsTrim ev.message)).headD [] = "RequestId:".toList ∧
      idShape ((jsSplit ' ' (jsTrim ev.message)).getD 1 []) = true) := by
    rintro ⟨-, hhd, -⟩
    rw [hhd] at hts
    exact absurd hts (by decide)
  have e1 : parseLambdaSTART (classifyBase ev) = classifyBase ev :=
    @parseLambdaSTART_noop (classifyBase ev) h1
  have e2 : parseLambdaEND (classifyBase ev) = classifyBase ev :=
    @parseLambdaEND_noop (classifyBase ev) h2
  have e3 : parseLambdaREPORT (classifyBase ev) = classifyBase ev :=
    @parseLambdaREPORT_noop (classifyBase ev) h3
  have e4 : parseLambdaUnknownApplicationError (classifyBase ev) = classifyBase ev :=
    @parseLambdaUnknownApplicationError_noop (classifyBase ev) h4
  have e5 : parseLambdaModuleInitializationError (classifyBase ev) = classifyBase ev :=
    @parseLambdaModuleInitializationError_noop (classifyBase ev) h5
  have e6 : parseLambdaExited (classifyBase ev) (jsSplit ' ' (jsTrim ev.message)) =
      classifyBase ev :=
    @parseLambdaExited_noop (classifyBase ev) _ h6
  have hguard : 3 ≤ (jsSplit ' ' (jsTrim ev.message)).length ∧
      tsShapeMs ((jsSplit ' ' (jsTrim ev.message)).headD []) = true ∧
      idShape ((jsSplit ' ' (jsTrim ev.message)).getD 1 []) = true :=
    ⟨hlen, hts, hid⟩
  simp only [parseLogMetadata, classifyBase_message, e1, e2, e3, classifyBase_level,
    Option.isSome_none, Bool.false_eq_true, if_false, e4, e5, e6,
    parseLambdaTimeoutOrMessage, if_pos hguard, classifyBase_metadata,
    Option.isSome_some, eq_self_iff_true, if_true, ite_self, Option.getD_none]
  simp [jsOrBool]

/-- Witness for C8 at the spec's Example D line. -/
theorem c8_timeout_classification_witness :
    (parseLogMetadata evTimeout "nodejs14.x".toList).level = some .ERROR ∧
    (parseLogMetadata evTimeout "nodejs14.x".toList).message =
      "Task timed out after 6.00 seconds".toList ∧
    (parseLogMetadata evTimeout "nodejs14.x".toList).invocationMetadata.bind InvMeta.isFailed =
      some true := by
  obtain ⟨hl, hm, hr, hf⟩ := c8_timeout_classification evTimeout "nodejs14.x".toList
    (by unfold timeoutGuard; decide)
  refine ⟨?_, ?_, ?_⟩
  · rw [hl]
    decide
  · rw [hm]
    decide
  · rw [hf]
    decide

/-- Helper: a runtime hint that starts with "python" cannot start with
"nodejs". -/
theorem python_not_nodejs {rt : Str} (hpy : jsStartsWith "python".toList rt = true) :
    jsStartsWith "nodejs".toList rt = false := by
  unfold jsStartsWith at hpy ⊢
  obtain ⟨t, ht⟩ := List.isPrefixOf_iff_prefix.mp hpy
  rw [← ht]
  simp [List.isPrefixOf]

/-- A scripting-family line with no bracketed tag and no tab structure whose
body contains a whitespace-bounded traceback marker. -/
def evPyTb : RawLogEvent :=
  { eventId := "u".toList, logStreamName := "s".toList, timestamp := 4,
    message := "boom Traceback (most recent call last): tail".toList }

/-- C4 (amended): on a scripting-runtime line still unclassified after the
generic matchers: if the bracketed-tag matcher matches, it sets the tag's
level mapping and rebuilds the message as "<tag> <rest>"; the traceback check
is then still applied to the rebuilt message (the matcher chain does not
short-circuit): if the rebuilt message contains the whitespace-bounded
traceback marker the level is overwritten to ERROR with the failure flag,
otherwise the tag level stands.  If the tag matcher does not match and the
(trimmed) message contains the whitespace-bounded traceback marker, the level
is set to ERROR with the failure flag and the message is left unchanged. -/
theorem c4_python_tag_amended (ev : RawLogEvent) (rt : Str)
    (hpy : jsStartsWith "python".toList rt = true)
    (hng : noGenericMatch (jsTrim ev.message)) :
    (pythonGuard (jsTrim ev.message) →
      (parseLogMetadata ev rt).message =
        (jsSplit '\t' (jsTrim ev.message)).headD [] ++
          ' ' :: jsJoin '\t' ((jsSplit '\t' (jsTrim ev.message)).drop 3) ∧
      (parseLogMetadata ev rt).requestId =
        some ((jsSplit '\t' (jsTrim ev.message)).getD 2 []) ∧
      (parseLogMetadata ev rt).level =
        some (if hasTraceback ((jsSplit '\t' (jsTrim ev.message)).headD [] ++
            ' ' :: jsJoin '\t' ((jsSplit '\t' (jsTrim ev.message)).drop 3)) = true
          then .ERROR
          else pythonTagLevel ((jsSplit '\t' (jsTrim ev.message)).headD [])) ∧
      (hasTraceback ((jsSplit '\t' (jsTrim ev.message)).headD [] ++
          ' ' :: jsJoin '\t' ((jsSplit '\t' (jsTrim ev.message)).drop 3)) = true →
        (parseLogMetadata ev rt).invocationMetadata.bind InvMeta.isFailed = some true)) ∧
    (¬ pythonGuard (jsTrim ev.message) → hasTraceback (jsTrim ev.message) = true →
      (parseLogMetadata ev rt).level = some .ERROR ∧
      (parseLogMetadata ev rt).message = jsTrim ev.message ∧
      (parseLogMetadata ev rt).invocationMetadata.bind InvMeta.isFailed = some true) := by
  obtain ⟨h1, h2, h3, h4, h5, h6, h7⟩ := hng
  rw [exitedGuard] at h6
  rw [timeoutGuard] at h7
  have hn : ¬(jsStartsWith "nodejs".toList rt = true) := by
    rw [python_not_nodejs hpy]
    decide
  have e1 : parseLambdaSTART (classifyBase ev) = classifyBase ev :=
    @parseLambdaSTART_noop (classifyBase ev) h1
  have e2 : parseLambdaEND (classifyBase ev) = classifyBase ev :=
    @parseLambdaEND_noop (classifyBase ev) h2
  have e3 : parseLambdaREPORT (classifyBase ev) = classifyBase ev :=
    @parseLambdaREPORT_noop (classifyBase ev) h3
  have e4 : parseLambdaUnknownApplicationError (classifyBase ev) = classifyBase ev :=
    @parseLambdaUnknownApplicationError_noop (classifyBase ev) h4
  have e5 : parseLambdaModuleInitializationError (classifyBase ev) = classifyBase ev :=
    @parseLambdaModuleInitializationError_noop (classifyBase ev) h5
  have e6 : parseLambdaExited (classifyBase ev) (jsSplit ' ' (jsTrim ev.message)) =
      classifyBase ev :=
    @parseLambdaExited_noop (classifyBase ev) _ h6
  have e7 : parseLambdaTimeoutOrMessage (classifyBase ev)
      (jsSplit ' ' (jsTrim ev.message)) = classifyBase ev :=
    @parseLambdaTimeoutOrMessage_noop (classifyBase ev) _ h7
  constructor
  · intro hpg
    rw [pythonGuard] at hpg
    have epl : parseLambdaPythonLog (classifyBase ev) (jsSplit '\t' (jsTrim ev.message)) =
        { classifyBase ev with
          requestId := some ((jsSplit '\t' (jsTrim ev.message)).getD 2 []),
          level := some (pythonTagLevel ((jsSplit '\t' (jsTrim ev.message)).headD [])),
          message := (jsSplit '\t' (jsTrim ev.message)).headD [] ++
            ' ' :: jsJoin '\t' ((jsSplit '\t' (jsTrim ev.message)).drop 3) } := by
      unfold parseLambdaPythonLog
      rw [if_pos hpg]
    by_cases htr : hasTraceback ((jsSplit '\t' (jsTrim ev.message)).headD [] ++
        ' ' :: jsJoin '\t' ((jsSplit '\t' (jsTrim ev.message)).drop 3)) = true
    · have etr : parseLambdaPythonTraceback
          { classifyBase ev with
            requestId := some ((jsSplit '\t' (jsTrim ev.message)).getD 2 []),
            level := some (pythonTagLevel ((jsSplit '\t' (jsTrim ev.message)).headD [])),
            message := (jsSplit '\t' (jsTrim ev.message)).headD [] ++
              ' ' :: jsJoin '\t' ((jsSplit '\t' (jsTrim ev.message)).drop 3) } =
          { classifyBase ev with
            requestId := some ((jsSplit '\t' (jsTrim ev.message)).getD 2 []),
            level := some .ERROR,
            message := (jsSplit '\t' (jsTrim ev.message)).headD [] ++
              ' ' :: jsJoin '\t' ((jsSplit '\t' (jsTrim ev.message)).drop 3),
            invocationMetadata := some { isFailed := some true } } := by
        unfold parseLambdaPythonTraceback
        rw [if_pos htr]
        rfl
      simp only [parseLogMetadata, classifyBase_message, e1, e2, e3, classifyBase_level,
        Option.isSome_none, Bool.false_eq_true, if_false, e4, e5, e6, e7, if_neg hn,
        if_pos hpy, epl, etr, Option.isSome_some, eq_self_iff_true, if_true, ite_self,
        if_pos htr]
      simp
    · have htr' : hasTraceback ((jsSplit '\t' (jsTrim ev.message)).headD [] ++
          ' ' :: jsJoin '\t' ((jsSplit '\t' (jsTrim ev.message)).drop 3)) = false := by
        simpa using htr
      have etr : parseLambdaPythonTraceback
          { classifyBase ev with
            requestId := some ((jsSplit '\t' (jsTrim ev.message)).getD 2 []),
            level := some (pythonTagLevel ((jsSplit '\t' (jsTrim ev.message)).headD [])),
            message := (jsSplit '\t' (jsTrim ev.message)).headD [] ++
              ' ' :: jsJoin '\t' ((jsSplit '\t' (jsTrim ev.message)).drop 3) } =
          { classifyBase ev with
            requestId := some ((jsSplit '\t' (jsTrim ev.message)).getD 2 []),
            level := some (pythonTagLevel ((jsSplit '\t' (jsTrim ev.message)).headD [])),
            message := (jsSplit '\t' (jsTrim ev.message)).headD [] ++
              ' ' :: jsJoin '\t' ((jsSplit '\t' (jsTrim ev.message)).drop 3) } :=
        @parseLambdaPythonTraceback_noop _ htr'
      simp only [parseLogMetadata, classifyBase_message, e1, e2, e3, classifyBase_level,
        Option.isSome_none, Bool.false_eq_true, if_false, e4, e5, e6, e7, if_neg hn,
        if_pos hpy, epl, etr, Option.isSome_some, eq_self_iff_true, if_true, ite_self,
        if_neg htr]
      refine ⟨trivial, trivial, trivial, fun hcon => absurd hcon htr⟩
  · intro hnpg htrc
    rw [pythonGuard] at hnpg
    have eplB : parseLambdaPythonLog (classifyBase ev) (jsSplit '\t' (jsTrim ev.message)) =
        classifyBase ev :=
      @parseLambdaPythonLog_noop (classifyBase ev) _ hnpg
    have etrB : parseLambdaPythonTraceback (classifyBase ev) =
        { classifyBase ev with
          level := some .ERROR,
          invocationMetadata := some { isFailed := some true } } := by
      unfold parseLambdaPythonTraceback
      rw [if_pos (show hasTraceback (classifyBase ev).message = true from htrc)]
      rfl
    simp only [parseLogMetadata, classifyBase_message, e1, e2, e3, classifyBase_level,
      Option.isSome_none, Bool.false_eq_true, if_false, e4, e5, e6, e7, if_neg hn,
      if_pos hpy, eplB, etrB, Option.isSome_some, eq_self_iff_true, if_true, ite_self]
    simp

/-- Witness for the amended C4: a concrete tag-matched WARNING line (first
branch) and a concrete tag-free traceback line (second branch). -/
theorem c4_python_tag_amended_witness :
    ((parseLogMetadata evPyWarn "python3.8".toList).level = some .WARN ∧
      (parseLogMetadata evPyWarn "python3.8".toList).message = "[WARNING] hello".toList) ∧
    ((parseLogMetadata evPyTb "python3.8".toList).level = some .ERROR ∧
      (parseLogMetadata evPyTb "python3.8".toList).message =
        "boom Traceback (most recent call last): tail".toList ∧
      (parseLogMetadata evPyTb "python3.8".toList).invocationMetadata.bind InvMeta.isFailed =
        some true) := by
  obtain ⟨hA, -⟩ := c4_python_tag_amended evPyWarn "python3.8".toList (by decide)
    (by unfold noGenericMatch exitedGuard timeoutGuard; decide)
  obtain ⟨hm, hr, hl, hf⟩ := hA (by unfold pythonGuard; decide)
  obtain ⟨-, hB⟩ := c4_python_tag_amended evPyTb "python3.8".toList (by decide)
    (by unfold noGenericMatch exitedGuard timeoutGuard; decide)
  obtain ⟨hl2, hm2, hf2⟩ := hB (by unfold pythonGuard; decide) (by decide)
  refine ⟨⟨?_, ?_⟩, hl2, ?_, hf2⟩
  · rw [hl]
    decide
  · rw [hm]
    decide
  · rw [hm2]
    decide

end SSTLogs
